import Mathlib

/-!
Verification development for the `ejsonschema` extension-aware JSON Schema
validation engine (usnistgov/ejsonschema).

The Python sources embedded here are:
  * `ejsonschema/validate.py`   — `ExtValidator` (the validation orchestrator)
  * `ejsonschema/schemaloader.py` — `SchemaLoader`, `DirectorySchemaCache`,
    `PackageResourceSchemaCache`
  * `ejsonschema/location.py`   — location-mapping-file parsing

Parsed JSON documents are modelled by the inductive type `JSON`; Python dicts
become association lists that preserve insertion order and have unique keys.
Schema identifiers are modelled as plain strings (the spec's data model calls
them opaque strings).  Error messages are abbreviated: they keep the wording
of the source format strings but do not interpolate the offending values.
-/

/-- A parsed JSON document (scalars, sequences, property maps). -/
inductive JSON where
  | null
  | bool (b : Bool)
  | num (n : Int)
  | str (s : String)
  | arr (elems : List JSON)
  | obj (fields : List (String × JSON))
deriving Repr, Inhabited

namespace JSON

/-- Lookup in a field list (first binding wins, as in a Python dict). -/
def lookupField : List (String × JSON) → String → Option JSON
  | [], _ => none
  | (k, v) :: rest, key => if k = key then some v else lookupField rest key

/-- `j.get(key)` on a property map; `none` for non-maps (the orchestrator
only calls `.get` on instances it treats as maps). -/
def jget (j : JSON) (key : String) : Option JSON :=
  match j with
  | JSON.obj fields => lookupField fields key
  | _ => none

/-- `key in j` for a property map. -/
def hasProp (j : JSON) (key : String) : Bool :=
  match j with
  | JSON.obj fields => fields.any (fun kv => kv.1 = key)
  | _ => false

/-- Is this node a string scalar? -/
def isStr : JSON → Bool
  | JSON.str _ => true
  | _ => false

/-- The string content of a string scalar (defaults to `""`). -/
def strOf : JSON → String
  | JSON.str s => s
  | _ => ""

end JSON

/-- A property value read as a schema identifier: a nonempty string.
Python truthiness makes the empty string act like an absent value in
`if not baseSchema:`-style checks in `validate.py`. -/
def asId : Option JSON → Option String
  | some (JSON.str s) => if s = "" then none else some s
  | _ => none

/-- Association-list lookup used for the registry and the validator cache. -/
def alookup {α : Type} : List (String × α) → String → Option α
  | [], _ => none
  | (k, v) :: rest, key => if k = key then some v else alookup rest key

/-- Association-list insert: replaces an existing binding in place,
otherwise appends (models Python `d[k] = v` on an insertion-ordered dict). -/
def ainsert {α : Type} : List (String × α) → String → α → List (String × α)
  | [], key, v => [(key, v)]
  | (k, w) :: rest, key, v =>
      if k = key then (k, v) :: rest else (k, w) :: ainsert rest key v

/-- `urllib.parse.urldefrag`, as used by `ExtValidator._spliturifrag`
(validate.py line 256): split a URI at its first `#` into base and fragment. -/
def splitHash (uri : String) : String × String :=
  let rec go : List Char → List Char → List Char × List Char
    | [], acc => (acc.reverse, [])
    | c :: rest, acc =>
        if c = '#' then (acc.reverse, rest) else go rest (c :: acc)
  let (b, f) := go uri.data []
  (String.mk b, String.mk f)

/-- Python `name.endswith(suffix)`, used by the directory scan's
`f.endswith(".json")` filter. -/
def strEndsWith (s suffix : String) : Bool :=
  suffix.data.isSuffixOf s.data

/-- Python `uri.rstrip('#')` from `SchemaLoader.add_location`
(schemaloader.py line 461): drop every trailing `#` character. -/
def rstripHash (s : String) : String :=
  String.mk ((s.data.reverse.dropWhile (fun c => c = '#')).reverse)

/-- Stripping a *single* trailing `#` — this definition follows the SPEC's
words ("the registry canonicalizes by stripping a single trailing `#`"),
for comparison with the source's `rstripHash`. -/
def stripOneHash (s : String) : String :=
  match s.data.reverse with
  | '#' :: rest => String.mk rest.reverse
  | _ => s

/-! ## The consumed Schema Evaluation capability

The orchestrator delegates instance evaluation and meta-schema checking to
the external `jsonschema` package, which the spec treats as a consumed
capability (`evaluate`, `check_schema`).  The definitions below are
*Modelled from the spec*: spec section 6, "Consumed capability — Schema
Evaluation": `evaluate(schema_body, instance) -> sequence of violations`.
We model the `type` and `properties` keywords of JSON Schema, which is what
the spec's scenarios exercise; a violation carries a message and the
offending document pointer. -/

/-- Does an instance node match a JSON-Schema `type` name? -/
def typeMatches (t : String) (inst : JSON) : Bool :=
  match inst with
  | JSON.null => t = "null"
  | JSON.bool _ => t = "boolean"
  | JSON.num _ => t = "number" ∨ t = "integer"
  | JSON.str _ => t = "string"
  | JSON.arr _ => t = "array"
  | JSON.obj _ => t = "object"

mutual

/-- Modelled from the spec: the external evaluation capability
`evaluate(schema_body, instance)` (spec section 6), covering the `type` and
`properties` keywords.  Returns `(message, instance pointer)` pairs; the
caller wraps them as schema-evaluation (ValidationError) records. -/
def evaluate (schema inst : JSON) (ptr : String) : List (String × String) :=
  match schema with
  | JSON.obj fields => evalFields fields inst ptr
  | _ => []

/-- Process the keyword fields of a schema object against an instance. -/
def evalFields (fields : List (String × JSON)) (inst : JSON) (ptr : String) :
    List (String × String) :=
  match fields with
  | [] => []
  | (k, v) :: rest =>
      (if k = "type" then
        match v with
        | JSON.str t =>
            if typeMatches t inst then []
            else [("is not of type " ++ t, ptr)]
        | _ => []
      else if k = "properties" then
        match v with
        | JSON.obj props => evalProps props inst ptr
        | _ => []
      else []) ++ evalFields rest inst ptr

/-- Evaluate each declared property's subschema against the instance's
corresponding property value, when present. -/
def evalProps (props : List (String × JSON)) (inst : JSON) (ptr : String) :
    List (String × String) :=
  match props with
  | [] => []
  | (k, sub) :: rest =>
      (match JSON.jget inst k with
       | some v => evaluate sub v (ptr ++ "/" ++ k)
       | none => []) ++ evalProps rest inst ptr

end

mutual

/-- Modelled from the spec: the external capability
`check_schema(schema_body) -> sequence of violations` (spec section 6),
i.e. `validator_for(schema).check_schema(schema)` in `validate.py`.
The modelled meta-schema requires a property map whose `type` keyword (when
present) names a JSON type and whose `properties` keyword (when present) is
a property map of schemas. -/
def checkSchema (schema : JSON) : List String :=
  match schema with
  | JSON.obj fields => checkFields fields
  | _ => ["schema is not an object"]

/-- Check the keyword fields of a schema object. -/
def checkFields (fields : List (String × JSON)) : List String :=
  match fields with
  | [] => []
  | (k, v) :: rest =>
      (if k = "type" then
        match v with
        | JSON.str t =>
            if t = "object" ∨ t = "array" ∨ t = "string" ∨ t = "number" ∨
               t = "integer" ∨ t = "boolean" ∨ t = "null" then []
            else ["unknown type name " ++ t]
        | _ => ["type keyword is not a string"]
      else if k = "properties" then
        match v with
        | JSON.obj props => checkPropSchemas props
        | _ => ["properties keyword is not an object"]
      else []) ++ checkFields rest

/-- Check each subschema under a `properties` keyword. -/
def checkPropSchemas (props : List (String × JSON)) : List String :=
  match props with
  | [] => []
  | (_, sub) :: rest => checkSchema sub ++ checkPropSchemas rest

end

/-! ## The Document Pointer Engine

`ejsonschema/instance.py` is not among the provided sources (only its test,
`tests/test_instance4.py`, is).  The definitions below are *Modelled from
the spec*: spec section 4.1, "Document Pointer Engine" — depth-first
pre-order traversal; for every property-map node that owns the marker
property, yield `(pointer-to-node, node)`; the root's pointer is `"/"`;
descent into arrays is by index and into maps by key, in insertion order.
This is `Instance.find_extended_objs` (equivalently
`find_objects_with_property` for the extension marker) used by
`ExtValidator.validate`. -/

/-- Pointer for a node reached with accumulated path `acc` (root is `/`). -/
def ptrOf (acc : String) : String :=
  if acc = "" then "/" else acc

mutual

/-- Modelled from the spec (section 4.1): collect `(pointer, node)` for every
property-map subtree owning the property `tag`, in depth-first pre-order. -/
def findExt (tag : String) (doc : JSON) (acc : String) :
    List (String × JSON) :=
  match doc with
  | JSON.obj fields =>
      (if fields.any (fun kv => kv.1 = tag) then [(ptrOf acc, JSON.obj fields)]
       else []) ++ findExtFields tag fields acc
  | JSON.arr elems => findExtArr tag elems acc 0
  | _ => []

/-- Descend into a property map's values, key by key. -/
def findExtFields (tag : String) (fields : List (String × JSON))
    (acc : String) : List (String × JSON) :=
  match fields with
  | [] => []
  | (k, v) :: rest =>
      findExt tag v (acc ++ "/" ++ k) ++ findExtFields tag rest acc

/-- Descend into a sequence's elements, index by index. -/
def findExtArr (tag : String) (elems : List JSON) (acc : String) (i : Nat) :
    List (String × JSON) :=
  match elems with
  | [] => []
  | e :: rest =>
      findExt tag e (acc ++ "/" ++ toString i) ++ findExtArr tag rest acc (i + 1)

end

/-! ## The Extension-Aware Validation Orchestrator (`ejsonschema/validate.py`) -/

/-- The error taxonomy the orchestrator surfaces (validate.py):
`vErr` is a `jsonschema.ValidationError` (message, instance pointer);
`schErr` a `SchemaError`; `missingSchemaDoc` the locally synthesized
`MissingSchemaDocument`; `unresolvable` a `referencing` `Unresolvable`;
`missingBase` the `ValidationError` raised at validate.py line 139 when no
base schema is specified (carrying the searched property name);
`valueError` the `ValueError` from `load_schema`. -/
inductive EErr where
  | vErr (msg : String) (ptr : String)
  | schErr (msg : String)
  | missingSchemaDoc (ref : String)
  | unresolvable (ref : String)
  | missingBase (tag : String)
  | valueError (msg : String)
deriving Repr, DecidableEq

/-- Is this error the missing-base-schema failure? -/
def EErr.isMissingBase : EErr → Bool
  | EErr.missingBase _ => true
  | _ => false

/-- What a call to `ExtValidator.validate` does: `raised e` models a Python
`raise e`; `errs l` models `return out` (the accumulated error list);
`errObj e` models the bare `return ex` at validate.py line 181, which
returns the exception object itself instead of a list. -/
inductive VResult where
  | raised (e : EErr)
  | errs (es : List EErr)
  | errObj (e : EErr)
deriving Repr, DecidableEq

/-- The mutable state of an `ExtValidator`: the marker prefix `_epfx`, the
schema resource registry (the `referencing.Registry` built over the
`SchemaLoader` retrieve hook, modelled as one finite identifier-to-body
map), and the per-identifier validator cache `_validators` (a cached
validator is modelled by the schema body it was compiled from). -/
structure EVState where
  epfx : String
  registry : List (String × JSON)
  validators : List (String × JSON)
deriving Repr

/-- `SCHEMATAG = "schema"` (validate.py line 21). -/
def SCHEMATAG : String := "schema"

/-- Modelled from the spec: `EXTSCHEMAS`, imported by `validate.py` from the
missing `ejsonschema/instance.py`; per spec section 4.6 the marker property
is `<prefix>extensionSchemas`, so the unprefixed suffix is
"extensionSchemas". -/
def EXTSCHEMAS : String := "extensionSchemas"

/-- The recognized identifiers of the extension-schema convention's own
schema (`EXTSCHEMA_URIS`, validate.py lines 24-28). -/
def EXTSCHEMA_URIS : List String :=
  [ "http://mgi.nist.gov/mgi-json-schema/v0.1",
    "https://www.nist.gov/od/dm/enhanced-json-schema/v0.1",
    "https://data.nist.gov/od/dm/enhanced-json-schema/v0.1",
    "https://data.nist.gov/od/dm/json-extension-schemas/v0.2",
    "https://data.nist.gov/od/dm/json-extension-schemas/v0.2/draft04" ]

/-- `ExtValidator.__init__` (validate.py lines 50-70): the `ejsprefix`
parameter defaults to `'@'`, and an explicit `None` is also replaced by
`'@'`; the registry is backed by the given `SchemaLoader` (modelled by the
identifier-to-body map `loaderMap`) and the validator cache starts empty. -/
def initExtValidator (loaderMap : List (String × JSON))
    (ejspfx : Option String) : EVState :=
  { epfx := ejspfx.getD "@", registry := loaderMap, validators := [] }

/-- `ExtValidator.is_extschema_schema` (validate.py lines 270-282): a
property map whose `$id` (or `id`) is one of `EXTSCHEMA_URIS` and which
carries the `<prefix>extensionSchemas` property. -/
def isExtschemaSchema (epfx : String) (instance_ : JSON) : Bool :=
  match instance_ with
  | JSON.obj _ =>
      let schemaid :=
        match asId (JSON.jget instance_ "$id") with
        | some i => some i
        | none => asId (JSON.jget instance_ "id")
      (match schemaid with
       | some i => EXTSCHEMA_URIS.contains i
       | none => false) &&
      JSON.hasProp instance_ (epfx ++ EXTSCHEMAS)
  | _ => false

/-- `ExtValidator.load_schema` (validate.py lines 95-122): determine the
identifier (explicit `uri` argument, else `$id`, else `id`, else raise
`ValueError`); run `check_schema` on the body (raising the first
`SchemaError` when it fails); then re-bind the identifier in the schema
resource registry.  The validator cache is not touched. -/
def loadSchema (st : EVState) (schema : JSON) (uri : Option String) :
    Except EErr EVState :=
  let u0 : Option String :=
    match uri with
    | some s => if s = "" then none else some s
    | none => none
  let u1 := match u0 with | some u => some u | none => asId (JSON.jget schema "$id")
  let u2 := match u1 with | some u => some u | none => asId (JSON.jget schema "id")
  match u2 with
  | none => Except.error (EErr.valueError "No id property found; set uri param instead.")
  | some u =>
      match checkSchema schema with
      | [] => Except.ok { st with registry := ainsert st.registry u schema }
      | m :: _ => Except.error (EErr.schErr m)

/-- The loop body of `ExtValidator.validate_against` (validate.py lines
207-254): for each identifier, reuse the cached validator when present;
otherwise split base and fragment, retrieve the base from the registry (on
failure synthesize `MissingSchemaDocument`, kept only under `strict`, and
continue), resolve a fragment by retrieving the full identifier (appending
`Unresolvable` on failure), check the schema body against its meta-schema
(appending those errors and skipping evaluation when it fails), then
evaluate the instance and cache the compiled validator under the full
identifier. -/
def vaLoop (inst : JSON) (strict : Bool) :
    EVState → List String → List EErr × EVState
  | st, [] => ([], st)
  | st, uri :: rest =>
      match alookup st.validators uri with
      | some val =>
          let errs := (evaluate val inst "").map (fun p => EErr.vErr p.1 p.2)
          let st1 := { st with validators := ainsert st.validators uri val }
          let (tail, st2) := vaLoop inst strict st1 rest
          (errs ++ tail, st2)
      | none =>
          let urib := (splitHash uri).1
          let frag := (splitHash uri).2
          match alookup st.registry urib with
          | none =>
              let (tail, st1) := vaLoop inst strict st rest
              ((if strict then [EErr.missingSchemaDoc urib] else []) ++ tail, st1)
          | some schemaBase =>
              let fragRes : Except EErr JSON :=
                if frag = "" then Except.ok schemaBase
                else
                  match alookup st.registry uri with
                  | none => Except.error (EErr.unresolvable uri)
                  | some s => Except.ok s
              match fragRes with
              | Except.error e =>
                  let (tail, st1) := vaLoop inst strict st rest
                  (e :: tail, st1)
              | Except.ok schema =>
                  match checkSchema schema with
                  | [] =>
                      let errs :=
                        (evaluate schema inst "").map (fun p => EErr.vErr p.1 p.2)
                      let st1 :=
                        { st with validators := ainsert st.validators uri schema }
                      let (tail, st2) := vaLoop inst strict st1 rest
                      (errs ++ tail, st2)
                  | m :: ms =>
                      let scherrs := (m :: ms).map EErr.schErr
                      let (tail, st1) := vaLoop inst strict st rest
                      (scherrs ++ tail, st1)

/-- `ExtValidator.validate_against(instance, schemauris, strict)`
(validate.py lines 192-254).  A single identifier string is treated by the
source as a one-element list; callers here always pass the list form. -/
def validateAgainst (st : EVState) (inst : JSON) (schemauris : List String)
    (strict : Bool) : List EErr × EVState :=
  vaLoop inst strict st schemauris

/-- The base-schema determination chain at the top of `ExtValidator.validate`
(validate.py lines 130-140): the `schemauri` override when truthy, else the
instance's `<prefix>schema` property, else — when the configured prefix is
not `'$'` — the instance's `$schema` property (the instance may be a
schema file). -/
def baseSchemaOf (epfx : String) (instance_ : JSON) (schemauri : Option String) :
    Option String :=
  let b0 : Option String :=
    match schemauri with
    | some s => if s = "" then none else some s
    | none => none
  let b1 := match b0 with
    | some b => some b
    | none => asId (JSON.jget instance_ (epfx ++ SCHEMATAG))
  match b1 with
  | some b => some b
  | none =>
      if epfx ≠ "$" then asId (JSON.jget instance_ ("$" ++ SCHEMATAG))
      else none

/-- The per-subtree extension loop of `ExtValidator.validate` (validate.py
lines 155-188).  For each `(pointer, node)` carrying the marker: a non-list
marker value is a `ValidationError` unless the instance is the
extension-schema convention's own schema and the value is a property map
(then the node is skipped); a list with a non-string item is a
`ValidationError` — raised under `raiseex`, and otherwise appended to `out`
but followed by the source's bare `return ex` (modelled by
`VResult.errObj`); otherwise the node is validated against the listed
identifiers under `strict`, raising the first accumulated error under
`raiseex`. -/
def extLoop (tag : String) (strict raiseex isExt : Bool) :
    EVState → List EErr → List (String × JSON) → VResult × EVState
  | st, out, [] => (VResult.errs out, st)
  | st, out, (ptr, node) :: rest =>
      match (JSON.jget node tag).getD JSON.null with
      | JSON.arr items =>
          if items.all JSON.isStr then
            let (errs2, st2) := validateAgainst st node (items.map JSON.strOf) strict
            let out2 := out ++ errs2
            match raiseex, out2 with
            | true, e :: _ => (VResult.raised e, st2)
            | _, _ => extLoop tag strict raiseex isExt st2 out2 rest
          else
            let ex := EErr.vErr ("invalid " ++ tag ++ " array item type") ptr
            if raiseex then (VResult.raised ex, st)
            else (VResult.errObj ex, st)
      | JSON.obj _ =>
          if isExt then extLoop tag strict raiseex isExt st out rest
          else
            let ex :=
              EErr.vErr ("invalid value type for " ++ tag ++ " (not an array)") ptr
            if raiseex then (VResult.raised ex, st)
            else (VResult.errs (out ++ [ex]), st)
      | _ =>
          let ex :=
            EErr.vErr ("invalid value type for " ++ tag ++ " (not an array)") ptr
          if raiseex then (VResult.raised ex, st)
          else (VResult.errs (out ++ [ex]), st)

/-- `ExtValidator.validate(instance, minimally, strict, schemauri, raiseex)`
(validate.py lines 124-190): determine the base schema (raising the
missing-base `ValidationError` when undetermined); evaluate the whole
instance against it via `validate_against` with `strict=True`; under
`raiseex` raise the first error; unless `minimally`, enumerate the subtrees
carrying `<prefix>extensionSchemas` and run the extension loop; finally
return the accumulated error list. -/
def validate (st : EVState) (instance_ : JSON) (minimally strict : Bool)
    (schemauri : Option String) (raiseex : Bool) : VResult × EVState :=
  let schematag := st.epfx ++ SCHEMATAG
  let extTag := st.epfx ++ EXTSCHEMAS
  match baseSchemaOf st.epfx instance_ schemauri with
  | none => (VResult.raised (EErr.missingBase schematag), st)
  | some b =>
      let (out, st1) := validateAgainst st instance_ [b] true
      match raiseex, out with
      | true, e :: _ => (VResult.raised e, st1)
      | _, _ =>
          if minimally then (VResult.errs out, st1)
          else
            let extensions := findExt extTag instance_ ""
            let isExt := isExtschemaSchema st.epfx instance_
            extLoop extTag strict raiseex isExt st1 out extensions

/-! ## The Schema Location Registry (`ejsonschema/schemaloader.py`) -/

/-- A `SchemaLoader`'s identifier-to-location map `_map`.  A binding is
modelled by the location string the loader was constructed from (equal
location strings denote the same loader behaviour). -/
structure SLState where
  map : List (String × String)
deriving Repr, DecidableEq

/-- `SchemaLoader.add_location(uri, loc)` (schemaloader.py lines 452-473):
strip every trailing `#` off the identifier (`uri.rstrip('#')`), default a
falsy location to the identifier itself, and bind. -/
def addLocation (sl : SLState) (uri : String) (loc : Option String) : SLState :=
  let uri1 := rstripHash uri
  let loc1 :=
    match loc with
    | none => uri1
    | some s => if s = "" then uri1 else s
  { map := ainsert sl.map uri1 loc1 }

/-- `SchemaLoader.load_schema(uri)` (schemaloader.py lines 492-501): look the
identifier up in `_map` (no canonicalization at lookup; `KeyError`, i.e.
`none`, if unbound) and invoke the bound loader — the binding invoked is
returned. -/
def loadSchemaLoc (sl : SLState) (uri : String) : Option String :=
  alookup sl.map uri

/-! ## Location-mapping files (`ejsonschema/location.py`) -/

/-- A Python exception as surfaced by the location module. -/
inductive PyExc where
  | valueError (msg : String)
  | attributeError (msg : String)
deriving Repr, DecidableEq

/-- `parse_mappings_asjson(fd)` (location.py lines 10-24): the body is only
`json.load(fd)`, so a JSON parse failure is a `ValueError`
(`json.JSONDecodeError`), and any successfully parsed value — property map
or not — is returned unchanged.  The stream is modelled by the outcome of
parsing it. -/
def parse_mappings_asjson (parsed : Except String JSON) : Except PyExc JSON :=
  match parsed with
  | Except.error msg => Except.error (PyExc.valueError msg)
  | Except.ok j => Except.ok j

/-- The `for uri, loc in out.items()` step of `LocationReader.read`
(location.py line 147) applied to the parsed mapping: iterating `.items()`
raises `AttributeError` when the parsed top-level value is not a property
map. -/
def readItems (j : JSON) : Except PyExc (List (String × JSON)) :=
  match j with
  | JSON.obj kvs => Except.ok kvs
  | _ => Except.error (PyExc.attributeError "object has no attribute items")

/-! ## Schema Discovery (`ejsonschema/schemaloader.py`)

A file under a scan root is modelled as a name paired with the outcome of
parsing its bytes as JSON (`Except.error` = `json.JSONDecodeError`).  The
set of recognized meta-schema identifiers
(`jsonschema.validators.meta_schemas`) is supplied by the external
evaluation capability and passed as the `meta` parameter. -/

/-- `DirectorySchemaCache._read_id(fd)` (schemaloader.py lines 671-702):
parse failure, a non-map top level, a missing `$schema` property, or an
unrecognized `$schema` value each raise `NotASchemaError` (modelled as
`Except.error` with the source's reason text); otherwise the `$id` property
(falling back to `id`) and the schema are returned. -/
def readId (meta : List String) (content : Except String JSON) :
    Except String (Option String × JSON) :=
  match content with
  | Except.error e => Except.error ("JSON content error: " ++ e)
  | Except.ok j =>
      match j with
      | JSON.obj _ =>
          match JSON.jget j "$schema" with
          | none =>
              Except.error "JSON object does not contain a $schema property"
          | some sv =>
              match sv with
              | JSON.str s =>
                  if meta.contains s then
                    let idv :=
                      if JSON.hasProp j "$id" then asId (JSON.jget j "$id")
                      else asId (JSON.jget j "id")
                    Except.ok (idv, j)
                  else Except.error ("Unrecognized JSON-Schema $schema: " ++ s)
              | _ => Except.error "Unrecognized JSON-Schema $schema"
      | _ => Except.error "Does not contain a JSON object"

/-- `DirectorySchemaCache.open_file(filename)` (schemaloader.py lines
704-720): read the id via `_read_id`, substituting a file-scheme identifier
derived from the file's path when the id is falsy. -/
def openFile (meta : List String) (dirpath fname : String)
    (content : Except String JSON) : Except String (String × JSON) :=
  match readId meta content with
  | Except.error e => Except.error e
  | Except.ok (idv, schema) =>
      match idv with
      | some i => Except.ok (i, schema)
      | none => Except.ok ("file://" ++ dirpath ++ "/" ++ fname, schema)

/-- `DirectorySchemaCache._iterfiles` (schemaloader.py lines 722-746): walk
the `.json` files; a file whose `open_file` raises `NotASchemaError` (or an
I/O error) is logged and skipped, and the scan continues with the remaining
files. -/
def iterfilesDir (meta : List String) (dirpath : String) :
    List (String × Except String JSON) → List (String × String × JSON)
  | [] => []
  | (fname, content) :: rest =>
      if strEndsWith fname ".json" then
        match openFile meta dirpath fname content with
        | Except.ok (i, schema) =>
            (fname, i, schema) :: iterfilesDir meta dirpath rest
        | Except.error _ => iterfilesDir meta dirpath rest
      else iterfilesDir meta dirpath rest

/-- `PackageResourceSchemaCache._iterschemas` (schemaloader.py lines
590-614): a parse failure is logged and skipped, but for a file whose top
level is not a property map, or which lacks a `$schema` property, the skip
path reads the misspelled attribute `self.loggger` (lines 598 and 602) and
so raises `AttributeError`, aborting the whole scan (modelled by
`Except.error`). -/
def iterschemasPkg :
    List (String × Except String JSON) →
      Except PyExc (List (String × Option String × JSON))
  | [] => Except.ok []
  | (fname, content) :: rest =>
      match content with
      | Except.error _ => iterschemasPkg rest
      | Except.ok j =>
          match j with
          | JSON.obj _ =>
              if JSON.hasProp j "$schema" then
                match iterschemasPkg rest with
                | Except.ok tail =>
                    let idv :=
                      match asId (JSON.jget j "$id") with
                      | some i => some i
                      | none => asId (JSON.jget j "id")
                    Except.ok ((fname, idv, j) :: tail)
                | Except.error e => Except.error e
              else
                Except.error (PyExc.attributeError
                  "PackageResourceSchemaCache object has no attribute loggger")
          | _ =>
              Except.error (PyExc.attributeError
                "PackageResourceSchemaCache object has no attribute loggger")

/-! ## Helper lemmas -/

/-- Errors lifted from the external evaluator are schema-evaluation errors,
never the missing-base-schema failure. -/
theorem mem_map_vErr_not_missingBase {l : List (String × String)} {e : EErr}
    (h : e ∈ l.map (fun p => EErr.vErr p.1 p.2)) : e.isMissingBase = false := by
  rcases List.mem_map.1 h with ⟨p, _, rfl⟩
  rfl

/-- Errors lifted from the meta-schema check are schema errors, never the
missing-base-schema failure. -/
theorem mem_map_schErr_not_missingBase {l : List String} {e : EErr}
    (h : e ∈ l.map EErr.schErr) : e.isMissingBase = false := by
  rcases List.mem_map.1 h with ⟨m, _, rfl⟩
  rfl

/-- No error produced by `validate_against` is the missing-base-schema
failure: that failure is raised only by `validate` itself, before any
schema evaluation. -/
theorem vaLoop_not_missingBase (inst : JSON) (strict : Bool) :
    ∀ (uris : List String) (st : EVState) (e : EErr),
      e ∈ (vaLoop inst strict st uris).1 → e.isMissingBase = false := by
  intro uris
  induction uris with
  | nil => intro st e h; simp [vaLoop] at h
  | cons uri rest ih =>
      intro st e h
      rw [vaLoop] at h
      cases hv : alookup st.validators uri with
      | some val =>
          rw [hv] at h
          simp only at h
          rcases h1 : vaLoop inst strict
              { st with validators := ainsert st.validators uri val } rest with ⟨tail, st2⟩
          rw [h1] at h
          simp only [List.mem_append] at h
          rcases h with h | h
          · exact mem_map_vErr_not_missingBase h
          · exact ih _ e (by rw [h1]; exact h)
      | none =>
          rw [hv] at h
          simp only at h
          cases hr : alookup st.registry (splitHash uri).1 with
          | none =>
              rw [hr] at h
              simp only at h
              rcases h1 : vaLoop inst strict st rest with ⟨tail, st1⟩
              rw [h1] at h
              simp only [List.mem_append] at h
              rcases h with h | h
              · rcases em (strict = true) with hs | hs
                · rw [if_pos hs] at h
                  simp only [List.mem_singleton] at h
                  subst h; rfl
                · rw [if_neg hs] at h; simp at h
              · exact ih _ e (by rw [h1]; exact h)
          | some sb =>
              rw [hr] at h
              simp only at h
              by_cases hf : (splitHash uri).2 = ""
              · rw [if_pos hf] at h
                simp only at h
                cases hc : checkSchema sb with
                | nil =>
                    rw [hc] at h
                    simp only at h
                    rcases h1 : vaLoop inst strict
                        { st with validators := ainsert st.validators uri sb } rest with ⟨tail, st2⟩
                    rw [h1] at h
                    simp only [List.mem_append] at h
                    rcases h with h | h
                    · exact mem_map_vErr_not_missingBase h
                    · exact ih _ e (by rw [h1]; exact h)
                | cons m ms =>
                    rw [hc] at h
                    simp only at h
                    rcases h1 : vaLoop inst strict st rest with ⟨tail, st1⟩
                    rw [h1] at h
                    simp only [List.mem_append] at h
                    rcases h with h | h
                    · exact mem_map_schErr_not_missingBase h
                    · exact ih _ e (by rw [h1]; exact h)
              · rw [if_neg hf] at h
                cases hq : alookup st.registry uri with
                | none =>
                    rw [hq] at h
                    simp only at h
                    rcases h1 : vaLoop inst strict st rest with ⟨tail, st1⟩
                    rw [h1] at h
                    simp only [List.mem_cons] at h
                    rcases h with h | h
                    · subst h; rfl
                    · exact ih _ e (by rw [h1]; exact h)
                | some s2 =>
                    rw [hq] at h
                    simp only at h
                    cases hc : checkSchema s2 with
                    | nil =>
                        rw [hc] at h
                        simp only at h
                        rcases h1 : vaLoop inst strict
                            { st with validators := ainsert st.validators uri s2 } rest with ⟨tail, st2⟩
                        rw [h1] at h
                        simp only [List.mem_append] at h
                        rcases h with h | h
                        · exact mem_map_vErr_not_missingBase h
                        · exact ih _ e (by rw [h1]; exact h)
                    | cons m ms =>
                        rw [hc] at h
                        simp only at h
                        rcases h1 : vaLoop inst strict st rest with ⟨tail, st1⟩
                        rw [h1] at h
                        simp only [List.mem_append] at h
                        rcases h with h | h
                        · exact mem_map_schErr_not_missingBase h
                        · exact ih _ e (by rw [h1]; exact h)

/-- If the extension loop starts from an accumulated list free of the
missing-base-schema failure, whatever it raises is not that failure
either. -/
theorem extLoop_raised_not_missingBase (tag : String) (strict : Bool) :
    ∀ (raiseex isExt : Bool) (exts : List (String × JSON)) (st : EVState)
      (out : List EErr),
      (∀ e ∈ out, e.isMissingBase = false) →
      ∀ e', (extLoop tag strict raiseex isExt st out exts).1 = VResult.raised e' →
        e'.isMissingBase = false := by
  intro raiseex isExt exts
  induction exts with
  | nil =>
      intro st out hout e' h
      simp [extLoop] at h
  | cons pn rest ih =>
      intro st out hout e' h
      rcases pn with ⟨ptr, node⟩
      rw [extLoop] at h
      cases hm : (JSON.jget node tag).getD JSON.null with
      | arr items =>
          rw [hm] at h
          simp only at h
          by_cases ha : items.all JSON.isStr
          · rw [if_pos ha] at h
            rcases h1 : validateAgainst st node (items.map JSON.strOf) strict with ⟨errs2, st2⟩
            rw [h1] at h
            simp only at h
            have hout2 : ∀ e ∈ out ++ errs2, e.isMissingBase = false := by
              intro e he
              rcases List.mem_append.1 he with he | he
              · exact hout e he
              · refine vaLoop_not_missingBase node strict (items.map JSON.strOf) st e ?_
                have h1' : vaLoop node strict st (items.map JSON.strOf) = (errs2, st2) := h1
                rw [h1']
                exact he
            cases raiseex with
            | true =>
                cases ho : out ++ errs2 with
                | nil =>
                    rw [ho] at h
                    exact ih st2 [] (by intro e he; simp at he) e' h
                | cons e0 es =>
                    rw [ho] at h
                    simp only [VResult.raised.injEq] at h
                    have h2 := hout2 e0 (by rw [ho]; exact List.mem_cons_self _ _)
                    rw [h] at h2
                    exact h2
            | false =>
                exact ih st2 _ hout2 e' h
          · rw [if_neg ha] at h
            cases raiseex with
            | true =>
                simp only [if_true, VResult.raised.injEq] at h
                subst h; rfl
            | false => simp at h
      | obj fs =>
          rw [hm] at h
          simp only at h
          cases isExt with
          | true =>
              simp only [if_true] at h
              exact ih st out hout e' h
          | false =>
              simp only [Bool.false_eq_true, if_false] at h
              cases raiseex with
              | true =>
                  simp only [if_true, VResult.raised.injEq] at h
                  subst h; rfl
              | false => simp at h
      | null =>
          rw [hm] at h
          simp only at h
          cases raiseex with
          | true =>
              simp only [if_true, VResult.raised.injEq] at h
              subst h; rfl
          | false => simp at h
      | bool b =>
          rw [hm] at h
          simp only at h
          cases raiseex with
          | true =>
              simp only [if_true, VResult.raised.injEq] at h
              subst h; rfl
          | false => simp at h
      | num n =>
          rw [hm] at h
          simp only at h
          cases raiseex with
          | true =>
              simp only [if_true, VResult.raised.injEq] at h
              subst h; rfl
          | false => simp at h
      | str s =>
          rw [hm] at h
          simp only at h
          cases raiseex with
          | true =>
              simp only [if_true, VResult.raised.injEq] at h
              subst h; rfl
          | false => simp at h

/-- When `validate` raises the missing-base-schema failure, the base-schema
determination chain really found nothing. -/
theorem validate_raised_missingBase_implies (st : EVState) (inst : JSON)
    (minimally strict : Bool) (ov : Option String) (raiseex : Bool) (e : EErr)
    (h : (validate st inst minimally strict ov raiseex).1 = VResult.raised e)
    (hmb : e.isMissingBase = true) :
    baseSchemaOf st.epfx inst ov = none := by
  cases hb : baseSchemaOf st.epfx inst ov with
  | none => rfl
  | some b =>
      exfalso
      rw [validate] at h
      rw [hb] at h
      simp only at h
      rcases h1 : validateAgainst st inst [b] true with ⟨out, st1⟩
      rw [h1] at h
      have hout : ∀ e0 ∈ out, e0.isMissingBase = false := by
        intro e0 he0
        refine vaLoop_not_missingBase inst true [b] st e0 ?_
        have h1' : vaLoop inst true st [b] = (out, st1) := h1
        rw [h1']
        exact he0
      cases raiseex with
      | true =>
          cases ho : out with
          | cons e0 es =>
              rw [ho] at h
              simp only [VResult.raised.injEq] at h
              have h2 := hout e0 (by rw [ho]; exact List.mem_cons_self _ _)
              rw [h] at h2
              rw [h2] at hmb
              exact Bool.false_ne_true hmb
          | nil =>
              rw [ho] at h
              cases minimally with
              | true => simp at h
              | false =>
                  simp only [Bool.false_eq_true, if_false] at h
                  have := extLoop_raised_not_missingBase (st.epfx ++ EXTSCHEMAS) strict
                    true (isExtschemaSchema st.epfx inst)
                    (findExt (st.epfx ++ EXTSCHEMAS) inst "") st1 []
                    (by intro e0 he0; simp at he0) e h
                  rw [this] at hmb
                  exact Bool.false_ne_true hmb
      | false =>
          cases minimally with
          | true => simp at h
          | false =>
              simp only [Bool.false_eq_true, if_false] at h
              have := extLoop_raised_not_missingBase (st.epfx ++ EXTSCHEMAS) strict
                false (isExtschemaSchema st.epfx inst)
                (findExt (st.epfx ++ EXTSCHEMAS) inst "") st1 out hout e h
              rw [this] at hmb
              exact Bool.false_ne_true hmb

/-- In minimal mode `validate` is exactly base-schema validation: the
extension machinery (traversal, the extension loop and the `strict` flag)
never enters the result. -/
theorem validate_minimal_base_only (st : EVState) (inst : JSON)
    (strict : Bool) (ov : Option String) (rx : Bool) :
    validate st inst true strict ov rx
      = match baseSchemaOf st.epfx inst ov with
        | none => (VResult.raised (EErr.missingBase (st.epfx ++ SCHEMATAG)), st)
        | some b =>
            match rx, (validateAgainst st inst [b] true).1 with
            | true, e :: _ =>
                (VResult.raised e, (validateAgainst st inst [b] true).2)
            | _, _ =>
                (VResult.errs (validateAgainst st inst [b] true).1,
                 (validateAgainst st inst [b] true).2) := by
  cases hb : baseSchemaOf st.epfx inst ov with
  | none => rw [validate, hb]
  | some b =>
      rw [validate, hb]
      rcases h1 : validateAgainst st inst [b] true with ⟨out, st1⟩
      rfl

/-! ## Concrete inputs used by the claim theorems -/

/-- An orchestrator with the default `'@'` prefix and one registered empty
schema under `"urn:a"`. -/
def exStEmptySchema : EVState :=
  { epfx := "@", registry := [("urn:a", JSON.obj [])], validators := [] }

/-- An orchestrator with the default `'@'` prefix and nothing registered. -/
def exStBare : EVState := { epfx := "@", registry := [], validators := [] }

/-- The registered schema of the spec's minimal-mode scenario:
`{"type":"object","properties":{"name":{"type":"string"}},"id":"urn:a"}`. -/
def exSchemaName : JSON :=
  JSON.obj [("type", JSON.str "object"),
            ("properties",
              JSON.obj [("name", JSON.obj [("type", JSON.str "string")])]),
            ("id", JSON.str "urn:a")]

/-- `{"$schema":"urn:a","name":"Bob"}`. -/
def exInstName : JSON :=
  JSON.obj [("$schema", JSON.str "urn:a"), ("name", JSON.str "Bob")]

/-- `{"$schema":"urn:a","name":3}`. -/
def exInstNameBad : JSON :=
  JSON.obj [("$schema", JSON.str "urn:a"), ("name", JSON.num 3)]

/-- `{"@schema":"urn:a","@extensionSchemas":[3]}` — a well-registered base
schema with a malformed extension-marker item. -/
def exInstMarkerItem : JSON :=
  JSON.obj [("@schema", JSON.str "urn:a"),
            ("@extensionSchemas", JSON.arr [JSON.num 3])]

/-- `{"@schema":"urn:b","@extensionSchemas":[3]}` — an unregistered base
schema combined with a malformed extension-marker item. -/
def exInstMarkerItemNoBase : JSON :=
  JSON.obj [("@schema", JSON.str "urn:b"),
            ("@extensionSchemas", JSON.arr [JSON.num 3])]

/-- A subtree carrying `{"$extensionSchemas":["urn:missing"], ...}`
(the extension marker naming a single unregistered identifier). -/
def exExtSubtree : JSON :=
  JSON.obj [("@extensionSchemas", JSON.arr [JSON.str "urn:missing"]),
            ("name", JSON.str "x")]

/-- A recognized meta-schema identifier for the discovery scenarios. -/
def exMetaUri : String := "http://json-schema.org/draft-04/schema#"

/-- A conforming schema file content for the discovery scenarios. -/
def exGoodSchemaFile : JSON :=
  JSON.obj [("$schema", JSON.str exMetaUri), ("$id", JSON.str "urn:a"),
            ("type", JSON.str "object")]

/-- An arbitrary JSON data file (a property map with no `$schema`). -/
def exDataFile : JSON := JSON.obj [("name", JSON.str "Bob")]

/-- A scan root holding one conforming schema file, one data file, one
unparseable file and one file with an unrecognized meta-schema marker. -/
def exScanFiles : List (String × Except String JSON) :=
  [("good.json", Except.ok exGoodSchemaFile),
   ("data.json", Except.ok exDataFile),
   ("broken.json", Except.error "Expecting value: line 1 column 1"),
   ("other.json", Except.ok (JSON.obj [("$schema", JSON.str "urn:other")]))]

/-! ## Claim theorems -/

/-- Claim C1 (code bug): with raise-on-error disabled, `validate` is
supposed to return the accumulated error sequence in every case, but on an
extension marker list containing a non-string item the source executes
`return ex` (validate.py line 181) and hands back the bare ValidationError
object instead of a sequence.  Evaluating the embedded code at
`{"@schema":"urn:a","@extensionSchemas":[3]}` with `raiseex=False` exhibits
the non-sequence return value. -/
theorem claim1_theorem :
    (validate exStEmptySchema exInstMarkerItem false false none false).1
      = VResult.errObj
          (EErr.vErr "invalid @extensionSchemas array item type" "/") := by
  rfl

/-- Claim C2 (amended): `validate` determines the base schema identifier as
`schemauri` when given, otherwise as the instance's `<prefix>schema`
property, otherwise — when the prefix is not `'$'` — as the instance's
`$schema` property; and it raises the missing-base-schema failure, with the
state untouched (so before any schema evaluation), exactly when this chain
finds nothing. -/
theorem claim2_theorem (st : EVState) (instance_ : JSON)
    (minimally strict : Bool) (schemauri : Option String) (raiseex : Bool) :
    (baseSchemaOf st.epfx instance_ schemauri = none →
      validate st instance_ minimally strict schemauri raiseex
        = (VResult.raised (EErr.missingBase (st.epfx ++ SCHEMATAG)), st))
    ∧ ((validate st instance_ minimally strict schemauri raiseex).1
        = VResult.raised (EErr.missingBase (st.epfx ++ SCHEMATAG)) →
      baseSchemaOf st.epfx instance_ schemauri = none) := by
  constructor
  · intro h
    rw [validate, h]
  · intro h
    exact validate_raised_missingBase_implies st instance_ minimally strict
      schemauri raiseex _ h rfl

/-- Claim C2 witness: an instance with no `@schema` property and no
override raises the missing-base failure with the state unchanged. -/
theorem claim2_witness :
    validate exStBare (JSON.obj []) false false none true
      = (VResult.raised (EErr.missingBase "@schema"), exStBare) :=
  (claim2_theorem exStBare (JSON.obj []) false false none true).1 rfl

/-- Claim C2 counterexample: the claim's "fails iff neither is present" is
false — with the default `'@'` prefix, an instance carrying only `$schema`
(so no override and no `@schema` property) does not fail: the source falls
back to the `$schema` property (validate.py lines 135-137). -/
theorem claim2_counterexample :
    JSON.jget (JSON.obj [("$schema", JSON.str "urn:a")]) "@schema" = none
    ∧ exStEmptySchema.epfx = "@"
    ∧ (validate exStEmptySchema (JSON.obj [("$schema", JSON.str "urn:a")])
        true false none false).1 = VResult.errs [] := by
  exact ⟨rfl, rfl, rfl⟩

/-- Claim C3: in `validate_against`, an identifier with no cached validator
whose base is not resolvable in the registry contributes the synthesized
`MissingSchemaDocument` error exactly when `strict` is true, is silently
skipped otherwise, and in both cases processing continues with the
remaining identifiers and an unchanged state. -/
theorem claim3_theorem (st : EVState) (inst : JSON) (uri : String)
    (rest : List String) (strict : Bool)
    (hc : alookup st.validators uri = none)
    (hr : alookup st.registry (splitHash uri).1 = none) :
    validateAgainst st inst (uri :: rest) strict
      = ((if strict then [EErr.missingSchemaDoc (splitHash uri).1] else [])
          ++ (validateAgainst st inst rest strict).1,
         (validateAgainst st inst rest strict).2) := by
  simp only [validateAgainst, vaLoop, hc, hr]

/-- Claim C3 witness: a subtree whose extension marker names the single
unregistered identifier `"urn:missing"` yields no missing-schema report
with `strict=false` and exactly one `MissingSchemaDocument` error with
`strict=true`. -/
theorem claim3_witness :
    validateAgainst exStBare exExtSubtree ["urn:missing"] false
      = ([], exStBare)
    ∧ validateAgainst exStBare exExtSubtree ["urn:missing"] true
      = ([EErr.missingSchemaDoc "urn:missing"], exStBare) := by
  constructor
  · exact claim3_theorem exStBare exExtSubtree "urn:missing" [] false rfl rfl
  · exact claim3_theorem exStBare exExtSubtree "urn:missing" [] true rfl rfl

/-- Claim C4: with `minimally=true`, `validate` is exactly base-schema
validation — the extension machinery and the `strict` flag never enter the
result — and on the spec's scenario the instance
`{"$schema":"urn:a","name":"Bob"}` yields an empty error sequence while
changing `"name"` to `3` yields exactly one schema-evaluation error citing
pointer `/name`. -/
theorem claim4_theorem :
    (validate (initExtValidator [("urn:a", exSchemaName)] none) exInstName
        true false none false).1 = VResult.errs []
    ∧ (validate (initExtValidator [("urn:a", exSchemaName)] none) exInstNameBad
        true false none false).1
        = VResult.errs [EErr.vErr "is not of type string" "/name"]
    ∧ (∀ (st : EVState) (inst : JSON) (strict : Bool) (ov : Option String)
        (rx : Bool),
        validate st inst true strict ov rx
          = match baseSchemaOf st.epfx inst ov with
            | none =>
                (VResult.raised (EErr.missingBase (st.epfx ++ SCHEMATAG)), st)
            | some b =>
                match rx, (validateAgainst st inst [b] true).1 with
                | true, e :: _ =>
                    (VResult.raised e, (validateAgainst st inst [b] true).2)
                | _, _ =>
                    (VResult.errs (validateAgainst st inst [b] true).1,
                     (validateAgainst st inst [b] true).2)) := by
  exact ⟨rfl, rfl, validate_minimal_base_only⟩

/-- Claim C5 (amended): an orchestrator constructed without an explicit
marker prefix uses `'@'` (not `'$'`) as the marker prefix, so by default
`validate` looks for the `@schema` and `@extensionSchemas` properties
(with the source's fallback to `$schema` for the base schema). -/
theorem claim5_theorem :
    (initExtValidator [] none).epfx = "@"
    ∧ (initExtValidator [] none).epfx ++ SCHEMATAG = "@schema"
    ∧ (initExtValidator [] none).epfx ++ EXTSCHEMAS = "@extensionSchemas"
    ∧ (validate (initExtValidator [("urn:a", JSON.obj [])] none)
        (JSON.obj [("@schema", JSON.str "urn:a")]) true false none false).1
        = VResult.errs [] := by
  exact ⟨rfl, rfl, rfl, rfl⟩

/-- Claim C5 counterexample: the default marker prefix is `'@'`, not the
claimed `'$'` (`ejsprefix='@'` in `ExtValidator.__init__`, validate.py
line 50). -/
theorem claim5_counterexample :
    (initExtValidator [] none).epfx = "@"
    ∧ ((initExtValidator [] none).epfx == "$") = false := by
  exact ⟨rfl, rfl⟩

/-- Claim C6 (amended): the registry canonicalizes an identifier by
stripping all trailing `#` characters (`uri.rstrip('#')`); canonicalization
is idempotent; and registering `"urn:x#"` then resolving `"urn:x"` yields
the same binding as registering `"urn:x"` directly. -/
theorem claim6_theorem :
    (∀ u : String, rstripHash (rstripHash u) = rstripHash u)
    ∧ (∀ (m : List (String × String)) (loc : Option String),
        addLocation ⟨m⟩ "urn:x#" loc = addLocation ⟨m⟩ "urn:x" loc)
    ∧ loadSchemaLoc (addLocation ⟨[]⟩ "urn:x#" (some "schemas/x.json")) "urn:x"
        = some "schemas/x.json"
    ∧ loadSchemaLoc (addLocation ⟨[]⟩ "urn:x" (some "schemas/x.json")) "urn:x"
        = some "schemas/x.json" := by
  refine ⟨?_, ?_, rfl, rfl⟩
  · intro u
    unfold rstripHash
    simp [List.reverse_reverse, List.dropWhile_idempotent]
  · intro m loc
    rfl

/-- Claim C6 counterexample: for `"urn:x##"` the registry key is `"urn:x"`
(every trailing `#` stripped), not the single-stripped `"urn:x#"` the claim
describes — looking the map up under the single-stripped identifier finds
nothing. -/
theorem claim6_counterexample :
    (addLocation ⟨[]⟩ "urn:x##" (some "L")).map = [("urn:x", "L")]
    ∧ stripOneHash "urn:x##" = "urn:x#"
    ∧ alookup (addLocation ⟨[]⟩ "urn:x##" (some "L")).map
        (stripOneHash "urn:x##") = none
    ∧ (("urn:x#" : String) == "urn:x") = false := by
  exact ⟨rfl, rfl, rfl, rfl⟩

/-- Claim C7 (code bug): the directory scan skips the data file, the
unparseable file and the unrecognized-marker file with diagnostics and
registers exactly the one conforming schema identifier; but the
package-resource scan of the same root aborts with `AttributeError`
because the skip path reads the misspelled attribute `self.loggger`
(schemaloader.py lines 598 and 602) instead of logging and continuing. -/
theorem claim7_theorem :
    iterfilesDir [exMetaUri] "/root" exScanFiles
      = [("good.json", "urn:a", exGoodSchemaFile)]
    ∧ iterschemasPkg exScanFiles
      = Except.error (PyExc.attributeError
          "PackageResourceSchemaCache object has no attribute loggger") := by
  exact ⟨rfl, rfl⟩

/-- Claim C8 (code bug): `parse_mappings_asjson` is documented to fail with
a `ValueError` when the parsed data cannot be converted to a dictionary,
but its body is only `json.load(fd)`: a non-map top level (here the array
`["u"]`) is returned unchanged, and `LocationReader.read` then dies with
`AttributeError` at `out.items()` rather than a format error.  A map top
level is returned as the identifier-to-location property map. -/
theorem claim8_theorem :
    parse_mappings_asjson (Except.ok (JSON.arr [JSON.str "u"]))
      = Except.ok (JSON.arr [JSON.str "u"])
    ∧ parse_mappings_asjson
        (Except.ok (JSON.obj [("urn:a", JSON.str "schemas/a.json")]))
      = Except.ok (JSON.obj [("urn:a", JSON.str "schemas/a.json")])
    ∧ readItems (JSON.arr [JSON.str "u"])
      = Except.error (PyExc.attributeError "object has no attribute items") := by
  exact ⟨rfl, rfl, rfl⟩

/-- Claim C9 (amended): the base-schema evaluation inside `validate` runs
with strict resolution regardless of the `strict` argument — with
raise-on-error enabled an unresolvable, uncached base identifier is always
raised as `MissingSchemaDocument`, whatever `minimally` and `strict` are —
and in minimal mode the result is entirely independent of `strict`. -/
theorem claim9_theorem :
    (∀ (st : EVState) (inst : JSON) (minimally strict : Bool)
      (ov : Option String) (b : String),
      baseSchemaOf st.epfx inst ov = some b →
      alookup st.validators b = none →
      alookup st.registry (splitHash b).1 = none →
      (validate st inst minimally strict ov true).1
        = VResult.raised (EErr.missingSchemaDoc (splitHash b).1))
    ∧ (∀ (st : EVState) (inst : JSON) (ov : Option String) (rx s1 s2 : Bool),
        validate st inst true s1 ov rx = validate st inst true s2 ov rx) := by
  constructor
  · intro st inst minimally strict ov b hb hv hr
    rw [validate, hb]
    simp only [validateAgainst, vaLoop, hv, hr]
    simp
  · intro st inst ov rx s1 s2
    rw [validate_minimal_base_only, validate_minimal_base_only]

/-- Claim C9 witness: with raise-on-error enabled, an instance whose base
schema `"urn:b"` is unregistered raises `MissingSchemaDocument` even with
`strict=false`. -/
theorem claim9_witness :
    (validate exStBare (JSON.obj [("@schema", JSON.str "urn:b")])
        false false none true).1
      = VResult.raised (EErr.missingSchemaDoc "urn:b") :=
  claim9_theorem.1 exStBare (JSON.obj [("@schema", JSON.str "urn:b")])
    false false none "urn:b" rfl rfl rfl

/-- Claim C9 counterexample: the unqualified "always reported (raised or
included in the returned sequence)" is false with raise-on-error disabled —
when the unresolvable-base error is already accumulated and a malformed
extension-marker item is then hit, the source's bare `return ex`
(validate.py line 181) discards the accumulated sequence, so the
missing-base-schema-document error is neither raised nor part of any
returned sequence. -/
theorem claim9_counterexample :
    (validate exStBare exInstMarkerItemNoBase false false none false).1
      = VResult.errObj
          (EErr.vErr "invalid @extensionSchemas array item type" "/") := by
  rfl

/-- Claim C10: a successful `load_schema` re-binds only the schema resource
registry and leaves the validator cache unchanged; consequently a
`validate_against` on an identifier already in the validator cache computes
its result from the cached validator alone — the same result for every
registry contents, so a body later re-registered for that identifier is
never consulted. -/
theorem claim10_theorem (st : EVState) (schema : JSON) (uriArg : Option String)
    (st' : EVState) (h : loadSchema st schema uriArg = Except.ok st') :
    st'.validators = st.validators
    ∧ ∀ (uri : String) (v inst : JSON) (strict : Bool)
        (R : List (String × JSON)),
        alookup st'.validators uri = some v →
        (validateAgainst { st' with registry := R } inst [uri] strict).1
          = (evaluate v inst "").map (fun p => EErr.vErr p.1 p.2) := by
  rw [loadSchema.eq_def] at h
  simp only at h
  split at h
  · exact absurd h (by simp)
  · split at h
    · constructor
      · injection h with h2
        rw [← h2]
      · intro uri v inst strict R hvu
        simp only [validateAgainst, vaLoop]
        rw [show ({ st' with registry := R } : EVState).validators
              = st'.validators from rfl] at *
        rw [hvu]
        simp
    · exact absurd h (by simp)

/-- Claim C10 witness: after a cached validator exists for `"urn:a"` (an
empty, accept-everything schema), `load_schema` of a stricter body under
the same identifier leaves the cache unchanged, and `validate_against` of
the instance `3` still reports no errors — the re-registered body is never
consulted. -/
theorem claim10_witness :
    ({ epfx := "@", registry := [("urn:a", exSchemaName)],
       validators := [("urn:a", JSON.obj [])] } : EVState).validators
      = ({ epfx := "@", registry := [("urn:a", JSON.obj [])],
           validators := [("urn:a", JSON.obj [])] } : EVState).validators
    ∧ (validateAgainst
        { ({ epfx := "@", registry := [("urn:a", exSchemaName)],
             validators := [("urn:a", JSON.obj [])] } : EVState) with
          registry := [("urn:a", exSchemaName)] }
        (JSON.num 3) ["urn:a"] false).1 = [] := by
  have h := claim10_theorem
    { epfx := "@", registry := [("urn:a", JSON.obj [])],
      validators := [("urn:a", JSON.obj [])] }
    exSchemaName none
    { epfx := "@", registry := [("urn:a", exSchemaName)],
      validators := [("urn:a", JSON.obj [])] } rfl
  exact ⟨h.1, h.2 "urn:a" (JSON.obj []) (JSON.num 3) false
    [("urn:a", exSchemaName)] rfl⟩
